import Mathlib

/-!
Verification of the kidsnotes batch image downloader
(`src/downloads.js` and its helpers in `src/utils.js`).

The JavaScript code is shallowly embedded:

* the filesystem is a finite map from paths to regular-file sizes
  (`FS`, an association list);
* the network is an environment: each attempt of `download` consumes one
  `NetEvent` from a per-item trace — a connection-level error
  (`request.on("error")`), the 30-second timeout firing
  (`request.setTimeout`), or a response with a status code, a declared
  `Content-Length` (0 when the header is absent or unparseable, matching
  `parseInt(headers["content-length"] || 0)` where NaN comparisons are
  all false) and the total number of body bytes received;
* `new URL(url).protocol` is an external library call, so a URL value
  carries its raw string together with the parse result (`none` when
  `new URL` throws);
* the global mutable `stats` object is threaded as explicit state
  (`DlState`), and the milliseconds slept in `setTimeout`/`sleep` calls
  are accumulated in a ghost counter `sleptMs`;
* JS exceptions become `Except String`, and a run whose trace is
  exhausted mid-attempt (a promise that never settles) is `none`.

Within a batch the JS code launches all downloads concurrently, but the
only shared mutation is single-field counter increments on each item's
completion callback, which the single-threaded event loop serializes;
the model therefore processes the items of a batch sequentially, while
batch-to-batch sequencing (`await downloadBatch` in a `for` loop) is
kept explicit in `runBatches`.
-/

/-! ## Filesystem model (`fs` usage in `utils.js` / `downloads.js`) -/

/-- A filesystem: a finite map from path strings to the byte size of the
regular file stored there (directories are not modelled; every entry is
a regular file, so `stat.isFile()` holds for every stored path). -/
abbrev FS := List (String × Nat)

/-- Size of the regular file at a path, `none` when no file exists
(`fs.existsSync` false). -/
def FS.lookup (fs : FS) (p : String) : Option Nat :=
  (List.find? (fun e => e.1 = p) fs).map (fun e => e.2)

/-- Create or overwrite the file at a path (`fs.createWriteStream` /
the bytes piped into it). -/
def FS.insert (fs : FS) (p : String) (n : Nat) : FS :=
  (p, n) :: List.filter (fun e => e.1 ≠ p) fs

/-- Delete the file at a path (`fs.unlink`). -/
def FS.remove (fs : FS) (p : String) : FS :=
  List.filter (fun e => e.1 ≠ p) fs

/-- `utils.js` `isValidFile(filePath, minSize = 1)`: the path is truthy,
a regular file exists there, and its size is at least `minSize`. -/
def isValidFile (fs : FS) (filePath : String) (minSize : Nat := 1) : Bool :=
  if filePath = "" then false
  else
    match fs.lookup filePath with
    | none => false
    | some size => minSize ≤ size

/-! ## URL model (`utils.js` `isValidUrl`) -/

/-- A URL string together with the result of `new URL(url)`: `protocol`
is `some p` when parsing succeeds with protocol `p` (e.g. `"https:"`),
`none` when the constructor throws. -/
structure Url where
  raw : String
  protocol : Option String
deriving DecidableEq, Repr

/-- `utils.js` `isValidUrl(url, allowedProtocols = ["https:"])`: the url
is a truthy string, parses, and its protocol is allow-listed. -/
def isValidUrl (url : Url) (allowedProtocols : List String := ["https:"]) : Bool :=
  if url.raw = "" then false
  else
    match url.protocol with
    | none => false
    | some p => allowedProtocols.contains p

/-! ## Filename derivation (`utils.js` `generateFilename`) -/

/-- A JavaScript id value (`string|number`), needed to express JS
truthiness: `0` and `""` are falsy. -/
inductive JsVal where
  | num (n : Int)
  | str (s : String)
deriving DecidableEq, Repr

/-- JS falsiness of an id value: the number 0 and the empty string. -/
def JsVal.falsy : JsVal → Bool
  | .num n => n = 0
  | .str s => s = ""

/-- String interpolation of an id value into the filename. -/
def JsVal.render : JsVal → String
  | .num n => toString n
  | .str s => s

/-- Replace the first occurrence of the non-empty pattern `pat` in a
character list by `repl`; leave the list unchanged when `pat` does not
occur. -/
def replaceFirstAux (pat repl : List Char) : List Char → List Char
  | [] => []
  | c :: cs =>
    if pat.isPrefixOf (c :: cs) then repl ++ cs.drop (pat.length - 1)
    else c :: replaceFirstAux pat repl cs

/-- JS `String.prototype.replace` with a plain-string pattern: replaces
only the first occurrence (on an empty pattern JS inserts `repl` at the
start). Implemented on character lists so that concrete runs compute. -/
def replaceFirst (s pat repl : String) : String :=
  if pat = "" then repl ++ s
  else String.mk (replaceFirstAux pat.data repl.data s.data)

/-- JS `createdAt.replace(/[-:]/g, "")`: remove every dash and colon. -/
def removeDashColon (s : String) : String :=
  String.mk (s.data.filter (fun c => ¬ (c = '-' ∨ c = ':')))

/-- JS `String.prototype.substring(0, n)` on character lists. -/
def takeChars (s : String) (n : Nat) : String :=
  String.mk (s.data.take n)

/-- JS `String.prototype.startsWith` on character lists. -/
def startsWithStr (s pat : String) : Bool :=
  pat.data.isPrefixOf s.data

/-- `utils.js` `generateFilename(createdAt, id, ext = ".jpg")`: throws
when `createdAt` or `id` is falsy; otherwise strips dashes/colons from
the timestamp, turns the first `"T"` into `"-"`, truncates to 15
characters, and appends `-{id}{ext}` (prefixing a dot to `ext` when
missing). -/
def generateFilename (createdAt : String) (id : JsVal) (ext : String := ".jpg") :
    Except String String :=
  if createdAt = "" ∨ id.falsy then
    .error "createdAt and id are required"
  else
    let sanitizedExt := if startsWithStr ext "." then ext else "." ++ ext
    .ok (takeChars (replaceFirst (removeDashColon createdAt) "T" "-") 15
          ++ "-" ++ id.render ++ sanitizedExt)

/-! ## Chunking (`utils.js` `chunkArray`) -/

/-- The slicing loop of `chunkArray`, with an explicit iteration bound
(`fuel`) making the recursion structural: each step takes the slice
`array.slice(i, i + chunkSize)` — here `x :: xs.take (chunkSize - 1)` —
and advances past it. Since every step consumes at least one element,
`fuel = array.length` never runs out (callers guarantee
`chunkSize ≥ 1`). -/
def chunkFuel (chunkSize : Nat) : Nat → List α → List (List α)
  | _, [] => []
  | 0, _ :: _ => []
  | fuel + 1, x :: xs =>
      (x :: xs.take (chunkSize - 1)) :: chunkFuel chunkSize fuel (xs.drop (chunkSize - 1))

/-- The slicing loop of `chunkArray`: `array.slice(i, i + chunkSize)`
for `i = 0, chunkSize, 2*chunkSize, ...`. -/
def chunkArrayGo (chunkSize : Nat) (l : List α) : List (List α) :=
  chunkFuel chunkSize l.length l

/-- `utils.js` `chunkArray(array, chunkSize)`: throws when
`chunkSize ≤ 0` (over `Nat`, when it is 0; the `Array.isArray` check is
enforced by typing), otherwise returns the consecutive slices. -/
def chunkArray (array : List α) (chunkSize : Nat) : Except String (List (List α)) :=
  if chunkSize ≤ 0 then .error "Chunk size must be positive"
  else .ok (chunkArrayGo chunkSize array)

/-! ## Node `path` helpers used by `downloads.js` -/

/-- Node `path.join(downloadPath, filename)` for a non-empty relative
filename. -/
def pathJoin (dir file : String) : String := dir ++ "/" ++ file

/-- Split a character list on a single separator character (structural,
so that concrete runs compute). -/
def splitOnChar (sep : Char) : List Char → List (List Char)
  | [] => [[]]
  | x :: xs =>
    if x = sep then [] :: splitOnChar sep xs
    else
      match splitOnChar sep xs with
      | [] => [[x]]
      | g :: gs => (x :: g) :: gs

/-- Node `path.extname`: the substring of the basename from its last
dot, `""` when the basename has no dot or starts with its only dot
(hidden files such as `".bashrc"`). -/
def extname (p : String) : String :=
  let base := ((splitOnChar '/' p.data).map String.mk).getLastD ""
  match splitOnChar '.' base.data with
  | [] => ""
  | [_] => ""
  | first :: p1 :: rest =>
      if first = [] ∧ rest = [] then ""
      else "." ++ String.mk ((p1 :: rest).getLastD [])

/-! ## The fetch unit (`downloads.js` `download`) -/

/-- One network event observed by one attempt of `download`:
a connection-level error (`request.on("error")` fires), the 30-second
timeout firing (`request.setTimeout`'s callback), or a response carrying
`statusCode`, the declared content length (0 when the header is absent),
and the number of body bytes delivered before `finish`. -/
inductive NetEvent where
  | transportError
  | timeout
  | response (statusCode : Nat) (contentLength : Nat) (bodyBytes : Nat)
deriving DecidableEq, Repr

/-- The network behavior offered to one work item: one event per attempt. -/
abbrev Trace := List NetEvent

/-- The value a `download` promise resolves with: `{status: "skipped"}`
or `{status: "downloaded", size}`. -/
inductive DlResolve where
  | skipped
  | downloaded (size : Nat)
deriving DecidableEq, Repr

/-- The error a `download` promise rejects with, by source branch:
`Invalid URL`, `HTTP {statusCode}`, `File too small ({n} bytes)`,
`Empty file downloaded`, `Timeout downloading`, and
`Download failed after retries`. -/
inductive DlError where
  | invalidSource
  | httpError (statusCode : Nat)
  | sizeViolation (declared : Nat)
  | emptyFile
  | timeout
  | transportFailure
deriving DecidableEq, Repr

/-- Settlement of one `download` promise: resolution or rejection. -/
abbrev DlResult := Except DlError DlResolve

instance {ε α : Type} [DecidableEq ε] [DecidableEq α] : DecidableEq (Except ε α) := fun a b =>
  match a, b with
  | Except.ok x, Except.ok y =>
    if h : x = y then isTrue (by rw [h]) else isFalse (by intro hc; cases hc; exact h rfl)
  | Except.error x, Except.error y =>
    if h : x = y then isTrue (by rw [h]) else isFalse (by intro hc; cases hc; exact h rfl)
  | Except.ok _, Except.error _ => isFalse (by intro hc; cases hc)
  | Except.error _, Except.ok _ => isFalse (by intro hc; cases hc)

/-- The global `stats` object of `downloads.js`. -/
structure Stats where
  total : Nat
  downloaded : Nat
  skipped : Nat
  failed : Nat
deriving DecidableEq, Repr

/-- Process state threaded through the model: the global `stats`, the
destination filesystem, and a ghost accumulator of milliseconds passed
to `setTimeout`/`sleep` (retry backoff and inter-batch pacing). -/
structure DlState where
  stats : Stats
  fs : FS
  sleptMs : Nat
deriving DecidableEq

/-- `downloads.js` `download(url, filename, retries = 3)`.

Per call: join the path; if a valid ≥100-byte file already exists,
bump `stats.skipped` and resolve `skipped`; if the URL is invalid,
reject `Invalid URL`; otherwise open the write stream (creating an
empty file) and issue the request, consuming the next trace event:

* transport error — close and unlink; with retries left, sleep 2000 ms
  and re-enter `download` from the top with `retries - 1`; otherwise
  reject `transportFailure`;
* timeout — destroy the request, unlink, reject `timeout` (no retry);
* response — non-200 status rejects `httpError` after unlink; a
  declared content length in `1..99` rejects `sizeViolation` after
  unlink; otherwise the body is piped to the file and on `finish` a
  positive byte count bumps `stats.downloaded` and resolves
  `downloaded`, while zero bytes unlinks and rejects `emptyFile`.

Returns the settlement, the new state, and the unconsumed trace;
`none` when the trace is exhausted mid-attempt. -/
def download (downloadPath : String) (st : DlState) (url : Url) (filename : String)
    (events : List NetEvent) (retries : Nat := 3) :
    Option (DlResult × DlState × List NetEvent) :=
  let filePath := pathJoin downloadPath filename
  if isValidFile st.fs filePath 100 then
    some (.ok .skipped,
      { st with stats := { st.stats with skipped := st.stats.skipped + 1 } },
      events)
  else if ¬ isValidUrl url then
    some (.error .invalidSource, st, events)
  else
    let fs1 := st.fs.insert filePath 0
    match events with
    | [] => none
    | ev :: rest =>
      match ev with
      | .transportError =>
        let st1 := { st with fs := fs1.remove filePath }
        if retries > 0 then
          download downloadPath { st1 with sleptMs := st1.sleptMs + 2000 }
            url filename rest (retries - 1)
        else
          some (.error .transportFailure, st1, rest)
      | .timeout =>
        some (.error .timeout, { st with fs := fs1.remove filePath }, rest)
      | .response statusCode contentLength bodyBytes =>
        if statusCode ≠ 200 then
          some (.error (.httpError statusCode), { st with fs := fs1.remove filePath }, rest)
        else if contentLength > 0 ∧ contentLength < 100 then
          some (.error (.sizeViolation contentLength),
            { st with fs := fs1.remove filePath }, rest)
        else
          let fs2 := fs1.insert filePath bodyBytes
          if bodyBytes > 0 then
            some (.ok (.downloaded bodyBytes),
              { st with
                  stats := { st.stats with downloaded := st.stats.downloaded + 1 },
                  fs := fs2 },
              rest)
          else
            some (.error .emptyFile, { st with fs := fs2.remove filePath }, rest)

/-! ## The batch scheduler (`downloads.js` `downloadBatch` / `downloads`) -/

/-- One entry of `downloadList`: `{url, filename}`. -/
structure WorkItem where
  url : Url
  filename : String
deriving DecidableEq, Repr

/-- `downloads.js` `downloadBatch(batch, ...)`: every item of the batch
is driven to settlement (`Promise.allSettled`); a rejection is caught in
the per-item wrapper, which bumps `stats.failed`. Each item is paired
with its network trace. Counter updates are serialized by the event
loop, so the model folds over the batch in order. -/
def downloadBatch (downloadPath : String) (st : DlState) :
    List (WorkItem × Trace) → Option DlState
  | [] => some st
  | (item, tr) :: restBatch =>
    match download downloadPath st item.url item.filename tr with
    | none => none
    | some (result, st1, _) =>
      let st2 := match result with
        | .ok _ => st1
        | .error _ =>
            { st1 with stats := { st1.stats with failed := st1.stats.failed + 1 } }
      downloadBatch downloadPath st2 restBatch

/-- The batch loop of `downloads.js` `downloads`: batches run strictly
in order, each awaited to completion before the next begins, with
`sleep(1000)` between batches but not after the last. -/
def runBatches (downloadPath : String) (st : DlState) :
    List (List (WorkItem × Trace)) → Option DlState
  | [] => some st
  | b :: bs =>
    match downloadBatch downloadPath st b with
    | none => none
    | some st1 =>
      if bs.isEmpty then some st1
      else runBatches downloadPath { st1 with sleptMs := st1.sleptMs + 1000 } bs

/-! ## Extraction (`downloads.js` `downloads`, step 1) -/

/-- One element of a report entry's `attached_images`: `{id, original}`;
`original` is `none` when the key is absent (`undefined`). -/
structure ImageRec where
  id : JsVal
  original : Option String
deriving DecidableEq, Repr

/-- One element of the report's `results`: `{created, attached_images}`;
an absent or empty `attached_images` is the empty list. -/
structure ReportEntry where
  created : String
  attached_images : List ImageRec
deriving DecidableEq, Repr

/-- A `downloadList` entry before URL parsing: the raw `original` string
and the derived filename. -/
structure RawItem where
  url : String
  filename : String
deriving DecidableEq, Repr

/-- The inner extraction loop of `downloads` over one entry's images: an
image with a falsy `original` is skipped with a warning (non-fatal);
otherwise `generateFilename(createdAt, id, path.extname(original) || ".jpg")`
is called, whose exception propagates and aborts the whole run. -/
def extractImages (createdAt : String) : List ImageRec → Except String (List RawItem)
  | [] => .ok []
  | img :: rest =>
    match img.original with
    | none => extractImages createdAt rest
    | some orig =>
      if orig = "" then extractImages createdAt rest
      else
        let ext := if extname orig = "" then ".jpg" else extname orig
        match generateFilename createdAt img.id ext with
        | .error e => .error e
        | .ok filename =>
          match extractImages createdAt rest with
          | .error e => .error e
          | .ok items => .ok ({ url := orig, filename := filename } :: items)

/-- The outer extraction loop of `downloads` over `data.results`,
producing `downloadList` in entry order. -/
def extractDownloadList : List ReportEntry → Except String (List RawItem)
  | [] => .ok []
  | entry :: rest =>
    match extractImages entry.created entry.attached_images with
    | .error e => .error e
    | .ok items =>
      match extractDownloadList rest with
      | .error e => .error e
      | .ok restItems => .ok (items ++ restItems)

/-- The view of one `downloadList` entry as the fetch unit sees it:
the raw URL string together with its `new URL` parse result, supplied
by the URL-parser environment `parse`. -/
def toWorkItem (parse : String → Option String) (it : RawItem) : WorkItem :=
  { url := { raw := it.url, protocol := parse it.url }, filename := it.filename }

/-- `downloads.js` `downloads(concurrency = 10)`: extract the download
list from the report (step 1), set `stats.total` and chunk the list by
`concurrency` (step 2), then run the batches sequentially (step 3).
`parse` is the URL parser environment (`new URL`), and `traces` assigns
each work item (by its index in `downloadList`) its network behavior.
`ensureDirectory` only touches directories, which the file map does not
model. -/
def downloads (parse : String → Option String) (downloadPath : String) (st : DlState)
    (results : List ReportEntry) (traces : Nat → Trace) (concurrency : Nat := 10) :
    Except String (Option DlState) :=
  match extractDownloadList results with
  | .error e => .error e
  | .ok downloadList =>
    match chunkArray (downloadList.enum.map (fun p => (toWorkItem parse p.2, traces p.1)))
        concurrency with
    | .error e => .error e
    | .ok batches =>
      .ok (runBatches downloadPath
        { st with stats := { st.stats with total := downloadList.length } } batches)

/-! ## Basic lemmas about the filesystem model -/

theorem FS.lookup_insert (fs : FS) (p : String) (n : Nat) :
    (fs.insert p n).lookup p = some n := by
  simp [FS.lookup, FS.insert, List.find?]

theorem FS.lookup_remove (fs : FS) (p : String) :
    (fs.remove p).lookup p = none := by
  unfold FS.lookup FS.remove
  rw [List.find?_eq_none.mpr]
  · rfl
  · intro x hx
    have hmem := (List.mem_filter.mp hx).2
    simp only [ne_eq, decide_not, Bool.not_eq_true'] at hmem
    simp only [decide_eq_true_eq]
    exact of_decide_eq_false hmem

theorem isValidFile_eq_false_of_lookup_none (fs : FS) (p : String) (m : Nat)
    (h : fs.lookup p = none) : isValidFile fs p m = false := by
  unfold isValidFile
  split
  · rfl
  · rw [h]

theorem pathJoin_ne_empty (dir file : String) : pathJoin dir file ≠ "" := by
  intro h
  have h2 := congrArg String.length h
  simp [pathJoin, String.length_append] at h2
  exact absurd h2.1.2 (by decide)

/-- Concrete valid https URL used by witnesses. -/
def httpsUrl : Url := { raw := "https://cdn.example.com/a.jpg", protocol := some "https:" }

/-- Concrete fresh run state used by witnesses. -/
def initState : DlState := { stats := ⟨0, 0, 0, 0⟩, fs := [], sleptMs := 0 }

/-! ## C2 — skip short-circuit -/

/-- C2: for every call to `download`, if a file already exists at the
destination path with size at least 100 bytes, the call resolves
`skipped` (bumping only the skipped counter), consumes no network
event (no network request is performed), and leaves the filesystem —
in particular the existing file — unchanged. -/
theorem C2_skip_short_circuit (downloadPath : String) (st : DlState) (url : Url)
    (filename : String) (events : List NetEvent) (retries : Nat)
    (h : isValidFile st.fs (pathJoin downloadPath filename) 100 = true) :
    download downloadPath st url filename events retries =
      some (.ok .skipped,
        { st with stats := { st.stats with skipped := st.stats.skipped + 1 } },
        events) := by
  simp [download, h]

theorem C2_witness :
    isValidFile ([("pics/a.jpg", 150)] : FS) (pathJoin "pics" "a.jpg") 100 = true
    ∧ download "pics" { stats := ⟨1, 0, 0, 0⟩, fs := [("pics/a.jpg", 150)], sleptMs := 0 }
        httpsUrl "a.jpg" [NetEvent.timeout] 3 =
      some (.ok .skipped, { stats := ⟨1, 0, 1, 0⟩, fs := [("pics/a.jpg", 150)], sleptMs := 0 },
        [NetEvent.timeout]) :=
  ⟨by decide,
   C2_skip_short_circuit "pics" { stats := ⟨1, 0, 0, 0⟩, fs := [("pics/a.jpg", 150)], sleptMs := 0 }
     httpsUrl "a.jpg" [NetEvent.timeout] 3 (by decide)⟩

/-! ## C8 — invalid source -/

/-- C8: for every URL that does not parse or whose scheme is not
`https:`, provided no valid existing file triggers the skip
short-circuit first, `download` rejects `invalidSource` with the state
completely unchanged (no file created, no counter touched), consuming
no network event (no network attempt), for every retry budget (no
retry). -/
theorem C8_invalid_source (downloadPath : String) (st : DlState) (url : Url)
    (filename : String) (events : List NetEvent) (retries : Nat)
    (hskip : isValidFile st.fs (pathJoin downloadPath filename) 100 = false)
    (hurl : isValidUrl url = false) :
    download downloadPath st url filename events retries =
      some (.error .invalidSource, st, events) := by
  simp [download, hskip, hurl]

theorem C8_witness :
    isValidFile ([] : FS) (pathJoin "pics" "a.jpg") 100 = false
    ∧ isValidUrl { raw := "http://cdn.example.com/a.jpg", protocol := some "http:" } = false
    ∧ download "pics" initState { raw := "http://cdn.example.com/a.jpg", protocol := some "http:" }
        "a.jpg" [NetEvent.response 200 200 200] 3 =
      some (.error .invalidSource, initState, [NetEvent.response 200 200 200]) :=
  ⟨by decide, by decide,
   C8_invalid_source "pics" initState
     { raw := "http://cdn.example.com/a.jpg", protocol := some "http:" }
     "a.jpg" [NetEvent.response 200 200 200] 3 (by decide) (by decide)⟩

/-! ## C4 — timeout is terminal -/

/-- C4: for every attempt whose trace event is the 30-second timeout
firing, `download` fails with `timeout`: the partial file at the
destination path is removed (its lookup is `none` afterwards), only the
one event is consumed, and the result is the same for every remaining
retry budget — a timed-out attempt is never retried and consumes no
transport-failure retry. -/
theorem C4_timeout_no_retry (downloadPath : String) (st : DlState) (url : Url)
    (filename : String) (rest : List NetEvent) (retries : Nat)
    (hskip : isValidFile st.fs (pathJoin downloadPath filename) 100 = false)
    (hurl : isValidUrl url = true) :
    download downloadPath st url filename (NetEvent.timeout :: rest) retries =
      some (.error .timeout,
        { st with fs := (st.fs.insert (pathJoin downloadPath filename) 0).remove (pathJoin downloadPath filename) },
        rest)
    ∧ ((st.fs.insert (pathJoin downloadPath filename) 0).remove
        (pathJoin downloadPath filename)).lookup (pathJoin downloadPath filename) = none := by
  refine ⟨?_, FS.lookup_remove _ _⟩
  simp [download, hskip, hurl]

theorem C4_witness :
    isValidFile ([] : FS) (pathJoin "pics" "a.jpg") 100 = false
    ∧ isValidUrl httpsUrl = true
    ∧ download "pics" initState httpsUrl "a.jpg" [NetEvent.timeout, NetEvent.transportError] 3 =
      some (.error .timeout, { stats := ⟨0, 0, 0, 0⟩, fs := [], sleptMs := 0 },
        [NetEvent.transportError]) :=
  ⟨by decide, by decide,
   by
    have h := C4_timeout_no_retry "pics" initState httpsUrl "a.jpg"
      [NetEvent.transportError] 3 (by decide) (by decide)
    exact h.1.trans (by decide)⟩

/-! ## C7 — declared content length below threshold -/

/-- C7: for every response declaring a content length strictly between
0 and 100 (e.g. 50), `download` fails with `sizeViolation` carrying the
declared length, the partial file is removed (no file remains at the
destination path), only the one event is consumed, and the result is
the same for every retry budget — no retry is performed for this
error. -/
theorem C7_size_violation (downloadPath : String) (st : DlState) (url : Url)
    (filename : String) (rest : List NetEvent) (retries : Nat)
    (contentLength bodyBytes : Nat)
    (hskip : isValidFile st.fs (pathJoin downloadPath filename) 100 = false)
    (hurl : isValidUrl url = true)
    (hcl1 : 0 < contentLength) (hcl2 : contentLength < 100) :
    download downloadPath st url filename
        (NetEvent.response 200 contentLength bodyBytes :: rest) retries =
      some (.error (.sizeViolation contentLength),
        { st with fs := (st.fs.insert (pathJoin downloadPath filename) 0).remove (pathJoin downloadPath filename) },
        rest)
    ∧ ((st.fs.insert (pathJoin downloadPath filename) 0).remove
        (pathJoin downloadPath filename)).lookup (pathJoin downloadPath filename) = none := by
  refine ⟨?_, FS.lookup_remove _ _⟩
  simp [download, hskip, hurl, hcl1, hcl2]

theorem C7_witness :
    isValidFile ([] : FS) (pathJoin "pics" "a.jpg") 100 = false
    ∧ isValidUrl httpsUrl = true
    ∧ download "pics" initState httpsUrl "a.jpg" [NetEvent.response 200 50 0, NetEvent.timeout] 3 =
      some (.error (.sizeViolation 50), { stats := ⟨0, 0, 0, 0⟩, fs := [], sleptMs := 0 },
        [NetEvent.timeout]) :=
  ⟨by decide, by decide,
   by
    have h := C7_size_violation "pics" initState httpsUrl "a.jpg"
      [NetEvent.timeout] 3 50 0 (by decide) (by decide) (by decide) (by decide)
    exact h.1.trans (by decide)⟩

/-! ## C9 — missing content length bypasses the minimum-size pre-check -/

/-- C9: when the response declares no positive content length (header
absent or 0, so `parseInt(... || 0)` yields 0), the minimum-size
pre-check is bypassed: a body of 1 to 99 actual bytes resolves
`downloaded` (bumping the downloaded counter) and leaves a file at the
destination path whose size is below the 100-byte threshold, so the
dedup-by-existence check `isValidFile _ _ 100` rejects it. -/
theorem C9_small_body_downloaded (downloadPath : String) (st : DlState) (url : Url)
    (filename : String) (rest : List NetEvent) (retries : Nat) (bodyBytes : Nat)
    (hskip : isValidFile st.fs (pathJoin downloadPath filename) 100 = false)
    (hurl : isValidUrl url = true)
    (h1 : 1 ≤ bodyBytes) (h2 : bodyBytes ≤ 99) :
    download downloadPath st url filename
        (NetEvent.response 200 0 bodyBytes :: rest) retries =
      some (.ok (.downloaded bodyBytes),
        { st with
            stats := { st.stats with downloaded := st.stats.downloaded + 1 },
            fs := (st.fs.insert (pathJoin downloadPath filename) 0).insert (pathJoin downloadPath filename) bodyBytes },
        rest)
    ∧ ((st.fs.insert (pathJoin downloadPath filename) 0).insert
        (pathJoin downloadPath filename) bodyBytes).lookup
        (pathJoin downloadPath filename) = some bodyBytes
    ∧ isValidFile ((st.fs.insert (pathJoin downloadPath filename) 0).insert
        (pathJoin downloadPath filename) bodyBytes)
        (pathJoin downloadPath filename) 100 = false := by
  refine ⟨?_, FS.lookup_insert _ _ _, ?_⟩
  · simp [download, hskip, hurl]
    omega
  · unfold isValidFile
    split
    · rfl
    · rw [FS.lookup_insert]
      simp
      omega

theorem C9_witness :
    isValidFile ([] : FS) (pathJoin "pics" "a.jpg") 100 = false
    ∧ isValidUrl httpsUrl = true
    ∧ download "pics" initState httpsUrl "a.jpg" [NetEvent.response 200 0 50] 3 =
      some (.ok (.downloaded 50),
        { stats := ⟨0, 1, 0, 0⟩, fs := [("pics/a.jpg", 50)], sleptMs := 0 }, [])
    ∧ isValidFile ([("pics/a.jpg", 50)] : FS) (pathJoin "pics" "a.jpg") 100 = false :=
  ⟨by decide, by decide,
   by
    have h := C9_small_body_downloaded "pics" initState httpsUrl "a.jpg"
      [] 3 50 (by decide) (by decide) (by decide) (by decide)
    exact h.1.trans (by decide),
   by decide⟩

/-! ## C3 — bounded transport retry -/

/-- After an attempt's cleanup, the destination file is gone, so the
dedup check fails when `download` re-enters from the top. -/
theorem isValidFile_after_cleanup (fs : FS) (p : String) (n m : Nat) :
    isValidFile ((fs.insert p n).remove p) p m = false :=
  isValidFile_eq_false_of_lookup_none _ _ _ (FS.lookup_remove _ _)

/-- One unfolding of the retry branch: a transport error with retries
left cleans up, sleeps 2000 ms, and re-enters `download` from the top
with one retry fewer. -/
theorem download_transportError_step (downloadPath : String) (st : DlState) (url : Url)
    (filename : String) (rest : List NetEvent) (r : Nat)
    (hskip : isValidFile st.fs (pathJoin downloadPath filename) 100 = false)
    (hurl : isValidUrl url = true) :
    download downloadPath st url filename (NetEvent.transportError :: rest) (r + 1) =
      download downloadPath
        { st with fs := (st.fs.insert (pathJoin downloadPath filename) 0).remove (pathJoin downloadPath filename), sleptMs := st.sleptMs + 2000 }
        url filename rest r := by
  conv_lhs => rw [download]
  simp [hskip, hurl]

theorem download_transport_then_success (downloadPath : String) (url : Url)
    (filename : String) (contentLength bodyBytes : Nat)
    (hurl : isValidUrl url = true)
    (hcl : contentLength = 0 ∨ 100 ≤ contentLength) (hbody : 0 < bodyBytes) :
    ∀ (k retries : Nat) (st : DlState), k ≤ retries →
      isValidFile st.fs (pathJoin downloadPath filename) 100 = false →
      ∃ st', download downloadPath st url filename
          (List.replicate k NetEvent.transportError
            ++ [NetEvent.response 200 contentLength bodyBytes]) retries
        = some (.ok (.downloaded bodyBytes), st', [])
        ∧ st'.stats.downloaded = st.stats.downloaded + 1
        ∧ st'.sleptMs = st.sleptMs + 2000 * k := by
  intro k
  induction k with
  | zero =>
    intro retries st _ hskip
    have hcl2 : ¬ (0 < contentLength ∧ contentLength < 100) := by omega
    refine ⟨{ st with
        stats := { st.stats with downloaded := st.stats.downloaded + 1 },
        fs := (st.fs.insert (pathJoin downloadPath filename) 0).insert (pathJoin downloadPath filename) bodyBytes },
      ?_, rfl, by simp⟩
    simp [download, hskip, hurl, hcl2, hbody]
  | succ k ih =>
    intro retries st hk hskip
    obtain ⟨r, rfl⟩ : ∃ r, retries = r + 1 := ⟨retries - 1, by omega⟩
    have hskip2 : isValidFile
        ((st.fs.insert (pathJoin downloadPath filename) 0).remove (pathJoin downloadPath filename))
        (pathJoin downloadPath filename) 100 = false :=
      isValidFile_after_cleanup _ _ _ _
    obtain ⟨st', h1, h2, h3⟩ := ih r
      { st with
          fs := (st.fs.insert (pathJoin downloadPath filename) 0).remove (pathJoin downloadPath filename),
          sleptMs := st.sleptMs + 2000 }
      (by omega) hskip2
    refine ⟨st', ?_, h2, by rw [h3]; ring⟩
    rw [List.replicate_succ, List.cons_append,
      download_transportError_step downloadPath st url filename _ r hskip hurl]
    exact h1

theorem download_transport_exhaust (downloadPath : String) (url : Url) (filename : String)
    (hurl : isValidUrl url = true) :
    ∀ (retries : Nat) (st : DlState) (rest : List NetEvent),
      isValidFile st.fs (pathJoin downloadPath filename) 100 = false →
      ∃ st', download downloadPath st url filename
          (List.replicate (retries + 1) NetEvent.transportError ++ rest) retries
        = some (.error .transportFailure, st', rest)
        ∧ st'.stats = st.stats := by
  intro retries
  induction retries with
  | zero =>
    intro st rest hskip
    refine ⟨{ st with fs := (st.fs.insert (pathJoin downloadPath filename) 0).remove (pathJoin downloadPath filename) },
      ?_, rfl⟩
    simp [download, hskip, hurl]
  | succ r ih =>
    intro st rest hskip
    obtain ⟨st', h1, h2⟩ := ih
      { st with
          fs := (st.fs.insert (pathJoin downloadPath filename) 0).remove (pathJoin downloadPath filename),
          sleptMs := st.sleptMs + 2000 }
      rest (isValidFile_after_cleanup _ _ _ _)
    refine ⟨st', ?_, h2⟩
    rw [List.replicate_succ, List.cons_append,
      download_transportError_step downloadPath st url filename _ r hskip hurl]
    exact h1

/-- C3: with the default budget of 3 retries, a work item whose trace
raises fewer than 4 consecutive transport errors and then succeeds
resolves `downloaded` (the downloaded counter bumped once), each of the
k retries having been scheduled after a fixed 2000 ms `setTimeout`
delay; a trace of 4 consecutive transport errors (the initial attempt
plus 3 retries) terminates with `transportFailure`, touching no
counter; and each retry re-enters `download` from the top with the
cleaned-up state, so the dedup-by-existence check and the scheme check
are re-run. -/
theorem C3_transport_retry (downloadPath : String) (st : DlState) (url : Url)
    (filename : String) (contentLength bodyBytes k : Nat)
    (hskip : isValidFile st.fs (pathJoin downloadPath filename) 100 = false)
    (hurl : isValidUrl url = true)
    (hk : k < 4)
    (hcl : contentLength = 0 ∨ 100 ≤ contentLength) (hbody : 0 < bodyBytes) :
    (∃ st', download downloadPath st url filename
        (List.replicate k NetEvent.transportError
          ++ [NetEvent.response 200 contentLength bodyBytes]) 3
      = some (.ok (.downloaded bodyBytes), st', [])
      ∧ st'.stats.downloaded = st.stats.downloaded + 1
      ∧ st'.sleptMs = st.sleptMs + 2000 * k)
    ∧ (∀ rest : List NetEvent, ∃ st'', download downloadPath st url filename
        (List.replicate 4 NetEvent.transportError ++ rest) 3
      = some (.error .transportFailure, st'', rest)
      ∧ st''.stats = st.stats)
    ∧ (∀ (st1 : DlState) (r : Nat) (rest : List NetEvent),
        isValidFile st1.fs (pathJoin downloadPath filename) 100 = false →
        download downloadPath st1 url filename (NetEvent.transportError :: rest) (r + 1) =
          download downloadPath
            { st1 with fs := (st1.fs.insert (pathJoin downloadPath filename) 0).remove (pathJoin downloadPath filename), sleptMs := st1.sleptMs + 2000 }
            url filename rest r) := by
  refine ⟨?_, ?_, ?_⟩
  · exact download_transport_then_success downloadPath url filename contentLength bodyBytes
      hurl hcl hbody k 3 st (by omega) hskip
  · intro rest
    exact download_transport_exhaust downloadPath url filename hurl 3 st rest hskip
  · intro st1 r rest hskip1
    exact download_transportError_step downloadPath st1 url filename rest r hskip1 hurl

theorem C3_witness :
    isValidFile ([] : FS) (pathJoin "pics" "a.jpg") 100 = false
    ∧ isValidUrl httpsUrl = true
    ∧ (2 : Nat) < 4
    ∧ ((200 : Nat) = 0 ∨ 100 ≤ (200 : Nat))
    ∧ (0 : Nat) < 150
    ∧ ((∃ st', download "pics" initState httpsUrl "a.jpg"
          (List.replicate 2 NetEvent.transportError ++ [NetEvent.response 200 200 150]) 3
        = some (.ok (.downloaded 150), st', [])
        ∧ st'.stats.downloaded = initState.stats.downloaded + 1
        ∧ st'.sleptMs = initState.sleptMs + 2000 * 2)
      ∧ (∀ rest : List NetEvent, ∃ st'', download "pics" initState httpsUrl "a.jpg"
          (List.replicate 4 NetEvent.transportError ++ rest) 3
        = some (.error .transportFailure, st'', rest)
        ∧ st''.stats = initState.stats)
      ∧ (∀ (st1 : DlState) (r : Nat) (rest : List NetEvent),
          isValidFile st1.fs (pathJoin "pics" "a.jpg") 100 = false →
          download "pics" st1 httpsUrl "a.jpg" (NetEvent.transportError :: rest) (r + 1) =
            download "pics"
              { st1 with fs := (st1.fs.insert (pathJoin "pics" "a.jpg") 0).remove (pathJoin "pics" "a.jpg"), sleptMs := st1.sleptMs + 2000 }
              httpsUrl "a.jpg" rest r)) :=
  ⟨by decide, by decide, by decide, by decide, by decide,
   C3_transport_retry "pics" initState httpsUrl "a.jpg" 200 150 2
     (by decide) (by decide) (by decide) (by decide) (by decide)⟩

/-! ## C1 — outcome accounting -/

/-- How one `download` settlement changes the global counters: a skip
bumps `skipped` (inside `download`), a success bumps `downloaded`
(inside `download`), and a rejection leaves the counters for the
caller (`downloadBatch` bumps `failed` in its catch). -/
def statsAfter (before : Stats) (res : DlResult) (after : Stats) : Prop :=
  match res with
  | .ok .skipped => after = { before with skipped := before.skipped + 1 }
  | .ok (.downloaded _) => after = { before with downloaded := before.downloaded + 1 }
  | .error _ => after = before

theorem download_statsAfter (downloadPath : String) (url : Url) (filename : String) :
    ∀ (events : List NetEvent) (retries : Nat) (st : DlState) (res : DlResult)
      (st' : DlState) (rest : List NetEvent),
      download downloadPath st url filename events retries = some (res, st', rest) →
      statsAfter st.stats res st'.stats := by
  intro events
  induction events with
  | nil =>
    intro retries st res st' rest h
    rw [download] at h
    split at h
    · simp only [Option.some.injEq, Prod.mk.injEq] at h
      obtain ⟨rfl, rfl, rfl⟩ := h
      simp [statsAfter]
    · split at h
      · simp only [Option.some.injEq, Prod.mk.injEq] at h
        obtain ⟨rfl, rfl, rfl⟩ := h
        simp [statsAfter]
      · simp at h
  | cons ev rest0 ih =>
    intro retries st res st' rest h
    rw [download] at h
    split at h
    · simp only [Option.some.injEq, Prod.mk.injEq] at h
      obtain ⟨rfl, rfl, rfl⟩ := h
      simp [statsAfter]
    · split at h
      · simp only [Option.some.injEq, Prod.mk.injEq] at h
        obtain ⟨rfl, rfl, rfl⟩ := h
        simp [statsAfter]
      · cases ev with
        | transportError =>
          dsimp only at h
          split at h
          · have hrec := ih (retries - 1) _ res st' rest h
            exact hrec
          · simp only [Option.some.injEq, Prod.mk.injEq] at h
            obtain ⟨rfl, rfl, rfl⟩ := h
            simp [statsAfter]
        | timeout =>
          dsimp only at h
          simp only [Option.some.injEq, Prod.mk.injEq] at h
          obtain ⟨rfl, rfl, rfl⟩ := h
          simp [statsAfter]
        | response statusCode contentLength bodyBytes =>
          dsimp only at h
          split at h
          · simp only [Option.some.injEq, Prod.mk.injEq] at h
            obtain ⟨rfl, rfl, rfl⟩ := h
            simp [statsAfter]
          · split at h
            · simp only [Option.some.injEq, Prod.mk.injEq] at h
              obtain ⟨rfl, rfl, rfl⟩ := h
              simp [statsAfter]
            · split at h
              · simp only [Option.some.injEq, Prod.mk.injEq] at h
                obtain ⟨rfl, rfl, rfl⟩ := h
                simp [statsAfter]
              · simp only [Option.some.injEq, Prod.mk.injEq] at h
                obtain ⟨rfl, rfl, rfl⟩ := h
                simp [statsAfter]

theorem downloadBatch_stats (downloadPath : String) :
    ∀ (batch : List (WorkItem × Trace)) (st st' : DlState),
      downloadBatch downloadPath st batch = some st' →
      st'.stats.downloaded + st'.stats.skipped + st'.stats.failed
        = st.stats.downloaded + st.stats.skipped + st.stats.failed + batch.length
      ∧ st'.stats.total = st.stats.total := by
  intro batch
  induction batch with
  | nil =>
    intro st st' h
    simp only [downloadBatch, Option.some.injEq] at h
    subst h
    simp
  | cons job restBatch ih =>
    intro st st' h
    obtain ⟨item, tr⟩ := job
    rw [downloadBatch] at h
    cases hdl : download downloadPath st item.url item.filename tr with
    | none => rw [hdl] at h; simp at h
    | some out =>
      obtain ⟨result, st1, remTr⟩ := out
      rw [hdl] at h
      have hstats := download_statsAfter downloadPath item.url item.filename tr _ st result st1 remTr hdl
      cases result with
      | ok r =>
        dsimp only at h
        obtain ⟨ihsum, ihtot⟩ := ih st1 st' h
        cases r with
        | skipped =>
          unfold statsAfter at hstats
          rw [hstats] at ihsum ihtot
          simp only [List.length_cons] at ihsum ihtot ⊢
          exact ⟨by omega, by omega⟩
        | downloaded n =>
          unfold statsAfter at hstats
          rw [hstats] at ihsum ihtot
          simp only [List.length_cons] at ihsum ihtot ⊢
          exact ⟨by omega, by omega⟩
      | error e =>
        dsimp only at h
        obtain ⟨ihsum, ihtot⟩ := ih _ _ h
        unfold statsAfter at hstats
        rw [hstats] at ihsum ihtot
        simp only [List.length_cons] at ihsum ihtot ⊢
        exact ⟨by omega, by omega⟩

theorem runBatches_stats (downloadPath : String) :
    ∀ (batches : List (List (WorkItem × Trace))) (st st' : DlState),
      runBatches downloadPath st batches = some st' →
      st'.stats.downloaded + st'.stats.skipped + st'.stats.failed
        = st.stats.downloaded + st.stats.skipped + st.stats.failed
          + (batches.map List.length).sum
      ∧ st'.stats.total = st.stats.total
  | [], st, st', h => by
      simp only [runBatches, Option.some.injEq] at h
      subst h
      simp
  | b :: bs, st, st', h => by
      rw [runBatches] at h
      cases hdb : downloadBatch downloadPath st b with
      | none => rw [hdb] at h; simp at h
      | some st1 =>
        rw [hdb] at h
        dsimp only at h
        obtain ⟨h1sum, h1tot⟩ := downloadBatch_stats downloadPath b st st1 hdb
        by_cases hbs : bs.isEmpty
        · rw [if_pos hbs] at h
          simp only [Option.some.injEq] at h
          subst h
          have hnil : bs = [] := List.isEmpty_iff.mp hbs
          subst hnil
          simp only [List.map_cons, List.sum_cons, List.map_nil, List.sum_nil]
          exact ⟨by omega, by omega⟩
        · rw [if_neg hbs] at h
          obtain ⟨h2sum, h2tot⟩ := runBatches_stats downloadPath bs _ st' h
          dsimp only at h2sum h2tot
          simp only [List.map_cons, List.sum_cons]
          exact ⟨by omega, by omega⟩

theorem chunkFuel_sum_length {α : Type} (k : Nat) :
    ∀ (fuel : Nat) (l : List α), l.length ≤ fuel →
      ((chunkFuel k fuel l).map List.length).sum = l.length := by
  intro fuel
  induction fuel with
  | zero =>
    intro l hl
    have : l = [] := List.eq_nil_of_length_eq_zero (Nat.le_zero.mp hl)
    subst this
    rfl
  | succ fuel ih =>
    intro l hl
    cases l with
    | nil => rfl
    | cons x xs =>
      rw [chunkFuel]
      simp only [List.map_cons, List.sum_cons]
      rw [ih (xs.drop (k - 1)) (by simp only [List.length_drop]; simp at hl; omega)]
      simp only [List.length_cons, List.length_take, List.length_drop]
      omega

theorem chunkArrayGo_sum_length {α : Type} (k : Nat) (l : List α) :
    ((chunkArrayGo k l).map List.length).sum = l.length :=
  chunkFuel_sum_length k l.length l (Nat.le_refl _)

theorem chunkFuel_flatten {α : Type} (k : Nat) :
    ∀ (fuel : Nat) (l : List α), l.length ≤ fuel →
      (chunkFuel k fuel l).flatten = l := by
  intro fuel
  induction fuel with
  | zero =>
    intro l hl
    have : l = [] := List.eq_nil_of_length_eq_zero (Nat.le_zero.mp hl)
    subst this
    rfl
  | succ fuel ih =>
    intro l hl
    cases l with
    | nil => rfl
    | cons x xs =>
      rw [chunkFuel, List.flatten_cons]
      rw [ih (xs.drop (k - 1)) (by simp only [List.length_drop]; simp at hl; omega)]
      simp [List.take_append_drop]

theorem chunkArrayGo_flatten {α : Type} (k : Nat) (l : List α) :
    (chunkArrayGo k l).flatten = l :=
  chunkFuel_flatten k l.length l (Nat.le_refl _)

theorem chunkFuel_length_le {α : Type} (k : Nat) (hk : 0 < k) :
    ∀ (fuel : Nat) (l : List α), ∀ ch ∈ chunkFuel k fuel l, ch.length ≤ k := by
  intro fuel
  induction fuel with
  | zero =>
    intro l ch hch
    cases l with
    | nil => simp [chunkFuel] at hch
    | cons x xs => simp [chunkFuel] at hch
  | succ fuel ih =>
    intro l ch hch
    cases l with
    | nil => simp [chunkFuel] at hch
    | cons x xs =>
      rw [chunkFuel] at hch
      rcases List.mem_cons.mp hch with hh | hh
      · subst hh
        simp only [List.length_cons, List.length_take]
        omega
      · exact ih (xs.drop (k - 1)) ch hh

theorem chunkArrayGo_length_le {α : Type} (k : Nat) (hk : 0 < k) (l : List α) :
    ∀ ch ∈ chunkArrayGo k l, ch.length ≤ k :=
  chunkFuel_length_le k hk l.length l

/-- C1: for every completed run of the batch downloader, each submitted
work item settles exactly once — counted by exactly one of the three
counters — so the final shared statistics satisfy
`downloaded + skipped + failed = total`, where `total` is the number of
work items submitted (the length of the extracted download list). -/
theorem C1_outcome_accounting (parse : String → Option String) (downloadPath : String)
    (st : DlState) (results : List ReportEntry) (traces : Nat → Trace)
    (concurrency : Nat) (st' : DlState) (items : List RawItem)
    (hextract : extractDownloadList results = .ok items)
    (hd : st.stats.downloaded = 0) (hs : st.stats.skipped = 0) (hf : st.stats.failed = 0)
    (hrun : downloads parse downloadPath st results traces concurrency = .ok (some st')) :
    st'.stats.downloaded + st'.stats.skipped + st'.stats.failed = st'.stats.total
    ∧ st'.stats.total = items.length := by
  unfold downloads at hrun
  rw [hextract] at hrun
  dsimp only at hrun
  unfold chunkArray at hrun
  by_cases hc : concurrency ≤ 0
  · rw [if_pos hc] at hrun
    simp at hrun
  · rw [if_neg hc] at hrun
    simp only [Except.ok.injEq] at hrun
    obtain ⟨hsum, htot⟩ := runBatches_stats downloadPath _ _ st' hrun
    simp only [hd, hs, hf] at hsum htot
    rw [chunkArrayGo_sum_length] at hsum
    simp only [List.length_map, List.enum_length] at hsum
    constructor
    · rw [hsum, htot]
      omega
    · exact htot

theorem C1_witness :
    extractDownloadList
        [⟨"2023-12-25T10:30:45",
          [⟨JsVal.num 1, some "https://x/a.png"⟩, ⟨JsVal.num 2, some "https://x/b.png"⟩]⟩]
      = .ok [⟨"https://x/a.png", "20231225-103045-1.png"⟩,
             ⟨"https://x/b.png", "20231225-103045-2.png"⟩]
    ∧ initState.stats.downloaded = 0 ∧ initState.stats.skipped = 0 ∧ initState.stats.failed = 0
    ∧ downloads (fun _ => some "https:") "pics" initState
        [⟨"2023-12-25T10:30:45",
          [⟨JsVal.num 1, some "https://x/a.png"⟩, ⟨JsVal.num 2, some "https://x/b.png"⟩]⟩]
        (fun _ => [NetEvent.response 200 200 150]) 10
      = .ok (some ⟨⟨2, 2, 0, 0⟩,
          [("pics/20231225-103045-2.png", 150), ("pics/20231225-103045-1.png", 150)], 0⟩)
    ∧ ((⟨⟨2, 2, 0, 0⟩,
          [("pics/20231225-103045-2.png", 150), ("pics/20231225-103045-1.png", 150)], 0⟩ : DlState).stats.downloaded
        + (⟨⟨2, 2, 0, 0⟩, [("pics/20231225-103045-2.png", 150), ("pics/20231225-103045-1.png", 150)], 0⟩ : DlState).stats.skipped
        + (⟨⟨2, 2, 0, 0⟩, [("pics/20231225-103045-2.png", 150), ("pics/20231225-103045-1.png", 150)], 0⟩ : DlState).stats.failed
        = (⟨⟨2, 2, 0, 0⟩, [("pics/20231225-103045-2.png", 150), ("pics/20231225-103045-1.png", 150)], 0⟩ : DlState).stats.total
      ∧ (⟨⟨2, 2, 0, 0⟩, [("pics/20231225-103045-2.png", 150), ("pics/20231225-103045-1.png", 150)], 0⟩ : DlState).stats.total
        = [(⟨"https://x/a.png", "20231225-103045-1.png"⟩ : RawItem),
           ⟨"https://x/b.png", "20231225-103045-2.png"⟩].length) :=
  ⟨by decide, by decide, by decide, by decide, by decide,
   C1_outcome_accounting (fun _ => some "https:") "pics" initState
     [⟨"2023-12-25T10:30:45",
       [⟨JsVal.num 1, some "https://x/a.png"⟩, ⟨JsVal.num 2, some "https://x/b.png"⟩]⟩]
     (fun _ => [NetEvent.response 200 200 150]) 10
     ⟨⟨2, 2, 0, 0⟩, [("pics/20231225-103045-2.png", 150), ("pics/20231225-103045-1.png", 150)], 0⟩
     [⟨"https://x/a.png", "20231225-103045-1.png"⟩, ⟨"https://x/b.png", "20231225-103045-2.png"⟩]
     (by decide) (by decide) (by decide) (by decide) (by decide)⟩

/-! ## C5 — idempotence of a second run -/

theorem download_downloaded_file (downloadPath : String) (url : Url) (filename : String) :
    ∀ (events : List NetEvent) (retries : Nat) (st st' : DlState) (n : Nat)
      (rest : List NetEvent),
      download downloadPath st url filename events retries
        = some (.ok (.downloaded n), st', rest) →
      st'.fs.lookup (pathJoin downloadPath filename) = some n := by
  intro events
  induction events with
  | nil =>
    intro retries st st' n rest h
    rw [download] at h
    split at h
    · simp at h
    · split at h
      · simp at h
      · simp at h
  | cons ev rest0 ih =>
    intro retries st st' n rest h
    rw [download] at h
    split at h
    · simp at h
    · split at h
      · simp at h
      · cases ev with
        | transportError =>
          dsimp only at h
          split at h
          · have hrec := ih (retries - 1) _ st' n rest h
            exact hrec
          · simp at h
        | timeout =>
          dsimp only at h
          simp at h
        | response statusCode contentLength bodyBytes =>
          dsimp only at h
          split at h
          · simp at h
          · split at h
            · simp at h
            · split at h
              · simp only [Option.some.injEq, Prod.mk.injEq, Except.ok.injEq,
                  DlResolve.downloaded.injEq] at h
                obtain ⟨rfl, rfl, rfl⟩ := h
                exact FS.lookup_insert _ _ _
              · simp at h

/-- C5 (amended): after a first-run `download` of an item resolves
`downloaded` with at least 100 bytes received, running the same item
again against the resulting filesystem resolves `skipped` — the file
written by the first run passes the 100-byte existing-valid-file check.
(The amendment is forced by the counterexample: a first-run download
that received 1–99 bytes — possible when no content length is declared
— leaves a file below the threshold, and the second run downloads it
again instead of skipping.) -/
theorem C5_second_run_skips (downloadPath : String) (st st1 : DlState) (url : Url)
    (filename : String) (events events2 : List NetEvent) (retries retries2 : Nat)
    (n : Nat) (rest : List NetEvent)
    (h : download downloadPath st url filename events retries
      = some (.ok (.downloaded n), st1, rest))
    (hn : 100 ≤ n) :
    download downloadPath st1 url filename events2 retries2 =
      some (.ok .skipped,
        { st1 with stats := { st1.stats with skipped := st1.stats.skipped + 1 } },
        events2) := by
  have hfile := download_downloaded_file downloadPath url filename events retries st st1 n rest h
  have hvalid : isValidFile st1.fs (pathJoin downloadPath filename) 100 = true := by
    unfold isValidFile
    rw [if_neg (pathJoin_ne_empty downloadPath filename), hfile]
    simpa using hn
  simp [download, hvalid]

/-- C5 counterexample: with no declared content length, a first-run
download of item `a.jpg` succeeds with only 50 bytes; the resulting
file fails the 100-byte validity check, so the second run over the
same destination directory downloads the item again — its outcome is
`downloaded`, not the `skipped` the claim requires for every item of a
second run. -/
theorem C5_counterexample :
    download "pics" initState httpsUrl "a.jpg" [NetEvent.response 200 0 50] 3
      = some (.ok (.downloaded 50), ⟨⟨0, 1, 0, 0⟩, [("pics/a.jpg", 50)], 0⟩, [])
    ∧ isValidFile ([("pics/a.jpg", 50)] : FS) (pathJoin "pics" "a.jpg") 100 = false
    ∧ download "pics" ⟨⟨0, 1, 0, 0⟩, [("pics/a.jpg", 50)], 0⟩ httpsUrl "a.jpg"
        [NetEvent.response 200 0 50] 3
      = some (.ok (.downloaded 50), ⟨⟨0, 2, 0, 0⟩, [("pics/a.jpg", 50)], 0⟩, [])
    ∧ (Except.ok (DlResolve.downloaded 50) : DlResult) ≠ .ok .skipped :=
  ⟨by decide, by decide, by decide, by decide⟩

theorem C5_witness :
    download "pics" initState httpsUrl "a.jpg" [NetEvent.response 200 0 150] 3
      = some (.ok (.downloaded 150), ⟨⟨0, 1, 0, 0⟩, [("pics/a.jpg", 150)], 0⟩, [])
    ∧ (100 : Nat) ≤ 150
    ∧ download "pics" ⟨⟨0, 1, 0, 0⟩, [("pics/a.jpg", 150)], 0⟩ httpsUrl "a.jpg"
        [NetEvent.response 200 0 150] 3
      = some (.ok .skipped, ⟨⟨0, 1, 1, 0⟩, [("pics/a.jpg", 150)], 0⟩, [NetEvent.response 200 0 150]) :=
  ⟨by decide, by decide,
   by
    have h := C5_second_run_skips "pics" initState ⟨⟨0, 1, 0, 0⟩, [("pics/a.jpg", 150)], 0⟩
      httpsUrl "a.jpg" [NetEvent.response 200 0 150] [NetEvent.response 200 0 150] 3 3 150 []
      (by decide) (by decide)
    exact h.trans (by decide)⟩

/-! ## C6 — batch partitioning and sequencing -/

/-- C6: for every work list and every concurrency width `c > 0`, the
scheduler's chunking partitions the list into contiguous groups of at
most `c` items whose concatenation is the original list (order
preserved within and across groups); in particular 5 items with
`c = 2` give exactly the 3 groups `[2-elem, 2-elem, 1-elem]`; and the
batch loop drives group N to a terminal state before group N+1 begins:
processing `b :: bs` runs `downloadBatch` on `b` to completion and
only in the `some` case continues with `bs` (after the 1000 ms
inter-batch sleep, skipped after the last group). -/
theorem C6_batch_partition {α : Type} (c : Nat) (l : List α)
    (chunks : List (List α)) (hc : 0 < c)
    (h : chunkArray l c = .ok chunks) :
    chunks.flatten = l
    ∧ (∀ ch ∈ chunks, ch.length ≤ c)
    ∧ chunkArray [1, 2, 3, 4, 5] 2 = .ok [[1, 2], [3, 4], [5]]
    ∧ (∀ (downloadPath : String) (st : DlState) (b : List (WorkItem × Trace))
        (bs : List (List (WorkItem × Trace))),
        runBatches downloadPath st (b :: bs) =
          match downloadBatch downloadPath st b with
          | none => none
          | some st1 =>
            if bs.isEmpty then some st1
            else runBatches downloadPath { st1 with sleptMs := st1.sleptMs + 1000 } bs) := by
  have hchunks : chunks = chunkArrayGo c l := by
    unfold chunkArray at h
    rw [if_neg (by omega)] at h
    simpa using h.symm
  subst hchunks
  refine ⟨chunkArrayGo_flatten c l, chunkArrayGo_length_le c hc l, by decide, ?_⟩
  intro downloadPath st b bs
  rw [runBatches]

theorem C6_witness :
    (0 : Nat) < 2
    ∧ chunkArray ([10, 20, 30, 40, 50] : List Nat) 2 = .ok [[10, 20], [30, 40], [50]]
    ∧ (([[10, 20], [30, 40], [50]] : List (List Nat)).flatten = [10, 20, 30, 40, 50]
      ∧ (∀ ch ∈ ([[10, 20], [30, 40], [50]] : List (List Nat)), ch.length ≤ 2)
      ∧ chunkArray [1, 2, 3, 4, 5] 2 = .ok [[1, 2], [3, 4], [5]]
      ∧ (∀ (downloadPath : String) (st : DlState) (b : List (WorkItem × Trace))
          (bs : List (List (WorkItem × Trace))),
          runBatches downloadPath st (b :: bs) =
            match downloadBatch downloadPath st b with
            | none => none
            | some st1 =>
              if bs.isEmpty then some st1
              else runBatches downloadPath { st1 with sleptMs := st1.sleptMs + 1000 } bs)) :=
  ⟨by decide, by decide,
   C6_batch_partition 2 [10, 20, 30, 40, 50] [[10, 20], [30, 40], [50]]
     (by decide) (by decide)⟩

/-! ## C10 — falsy image id aborts the run -/

/-- C10: `generateFilename` throws exactly when `createdAt` or `id` is
falsy; consequently a report entry containing an attached image whose
id is falsy (the number 0 or the empty string) but whose source URL is
present makes the extraction loop of `downloads` throw, aborting the
whole run before any download begins — whereas an image lacking a
source URL is skipped non-fatally (with a warning) and contributes
nothing to the download list. -/
theorem C10_falsy_id_aborts (createdAt : String) (id : JsVal) (url : String)
    (images : List ImageRec) (entries : List ReportEntry)
    (parse : String → Option String) (downloadPath : String) (st : DlState)
    (traces : Nat → Trace) (concurrency : Nat)
    (hc : createdAt ≠ "") (hid : id.falsy = true) (hu : url ≠ "") :
    (∀ (ca : String) (i : JsVal) (ext : String),
        generateFilename ca i ext = .error "createdAt and id are required"
          ↔ (ca = "" ∨ i.falsy = true))
    ∧ extractDownloadList
        ({ created := createdAt, attached_images := ⟨id, some url⟩ :: images } :: entries)
      = .error "createdAt and id are required"
    ∧ downloads parse downloadPath st
        ({ created := createdAt, attached_images := ⟨id, some url⟩ :: images } :: entries)
        traces concurrency
      = .error "createdAt and id are required"
    ∧ (∀ (ca : String) (i : JsVal),
        extractDownloadList [{ created := ca, attached_images := [⟨i, none⟩] }] = .ok []) := by
  have hgen : ∀ (ca : String) (i : JsVal) (ext : String),
      generateFilename ca i ext = .error "createdAt and id are required"
        ↔ (ca = "" ∨ i.falsy = true) := by
    intro ca i ext
    unfold generateFilename
    split
    · rename_i hcond
      simp only [true_iff]
      simpa using hcond
    · rename_i hcond
      constructor
      · intro hx
        exact absurd hx (by simp)
      · intro hx
        exact absurd (by simpa using hx) hcond
  have hgen2 : generateFilename createdAt id
      (if extname url = "" then ".jpg" else extname url)
      = .error "createdAt and id are required" :=
    (hgen _ _ _).mpr (Or.inr hid)
  have himg : extractImages createdAt (⟨id, some url⟩ :: images)
      = .error "createdAt and id are required" := by
    rw [extractImages]
    dsimp only
    rw [if_neg hu, hgen2]
  have hext : extractDownloadList
      ({ created := createdAt, attached_images := ⟨id, some url⟩ :: images } :: entries)
      = .error "createdAt and id are required" := by
    rw [extractDownloadList]
    dsimp only
    rw [himg]
  refine ⟨hgen, hext, ?_, ?_⟩
  · unfold downloads
    rw [hext]
  · intro ca i
    rfl

theorem C10_witness :
    ("2023-12-25T10:30:45" : String) ≠ ""
    ∧ (JsVal.num 0).falsy = true
    ∧ ("https://x/a.png" : String) ≠ ""
    ∧ ((∀ (ca : String) (i : JsVal) (ext : String),
        generateFilename ca i ext = .error "createdAt and id are required"
          ↔ (ca = "" ∨ i.falsy = true))
      ∧ extractDownloadList
          [{ created := "2023-12-25T10:30:45",
             attached_images := [⟨JsVal.num 0, some "https://x/a.png"⟩] }]
        = .error "createdAt and id are required"
      ∧ downloads (fun _ => some "https:") "pics" initState
          [{ created := "2023-12-25T10:30:45",
             attached_images := [⟨JsVal.num 0, some "https://x/a.png"⟩] }]
          (fun _ => []) 10
        = .error "createdAt and id are required"
      ∧ (∀ (ca : String) (i : JsVal),
          extractDownloadList [{ created := ca, attached_images := [⟨i, none⟩] }] = .ok [])) :=
  ⟨by decide, by decide, by decide,
   C10_falsy_id_aborts "2023-12-25T10:30:45" (JsVal.num 0) "https://x/a.png"
     [] [] (fun _ => some "https:") "pics" initState (fun _ => []) 10
     (by decide) (by decide) (by decide)⟩
